import Mathlib

/-!
Verification development for the Diagnostic & Execution Orchestration Engine
of an educational Java compiler front-end.

The TypeScript source is shallowly embedded: JavaScript regular-expression
tests are executed by a small backtracking matcher (`mrun`) whose result list
is ordered exactly like JavaScript's preference order (leftmost position
first, left alternative first, greedy repetition first), so the head of the
list is the match JavaScript reports; `String.prototype.slice` /
`Array.prototype.slice` are modelled by `jsRel` with JavaScript's
negative-index and clamping rules; JS string truthiness (the empty string is
falsy) is modelled explicitly where the source relies on it.
-/

/-- JavaScript word character, the `\w` class: `[A-Za-z0-9_]`. -/
def isWordChar (c : Char) : Bool :=
  c.isAlpha || c.isDigit || c = '_'

/-- JavaScript whitespace as matched by `\s` (the forms occurring here). -/
def isSpaceChar (c : Char) : Bool :=
  c = ' ' || c = '\t' || c = '\n' || c = '\r' || c = '\x0b' || c = '\x0c'

/-- Regular-expression syntax actually used by the embedded source: literal
characters, character classes, sequencing, alternation, greedy repetition of
a character class (`\s*`, `[^;]+` …), numbered capturing groups, and the
word-boundary lookahead needed for `0\b`. -/
inductive RE where
  | eps
  | lit (c : Char)
  | cls (f : Char → Bool)
  | notWordAhead
  | seq (a b : RE)
  | alt (a b : RE)
  | starCls (f : Char → Bool)
  | group (n : Nat) (a : RE)

/-- All ways a greedy `f*` can split the input, longest consumption first
(the order JavaScript's greedy repetition prefers): each element is the
remaining suffix. -/
def starSplits (f : Char → Bool) : List Char → List (List Char)
  | [] => [[]]
  | c :: cs => if f c then starSplits f cs ++ [c :: cs] else [c :: cs]

/-- Run a pattern at the start of the input.  Returns every way the pattern
can match a prefix, highest JavaScript preference first; each result is the
remaining suffix paired with the captured groups. -/
def mrun : RE → List Char → List (List Char × List (Nat × List Char))
  | .eps, s => [(s, [])]
  | .lit _, [] => []
  | .lit c, x :: xs => if x = c then [(xs, [])] else []
  | .cls _, [] => []
  | .cls f, x :: xs => if f x then [(xs, [])] else []
  | .notWordAhead, [] => [([], [])]
  | .notWordAhead, x :: xs => if isWordChar x then [] else [(x :: xs, [])]
  | .seq a b, s =>
      (mrun a s).flatMap (fun r => (mrun b r.1).map (fun r2 => (r2.1, r.2 ++ r2.2)))
  | .alt a b, s => mrun a s ++ mrun b s
  | .starCls f, s => (starSplits f s).map (fun rest => (rest, []))
  | .group n a, s =>
      (mrun a s).map (fun r => (r.1, (n, s.take (s.length - r.1.length)) :: r.2))

/-- The input together with all of its suffixes, leftmost first. -/
def tailsL : List Char → List (List Char)
  | [] => [[]]
  | c :: cs => (c :: cs) :: tailsL cs

/-- `RegExp.prototype.test`: does the pattern match anywhere in the input? -/
def reTest (re : RE) (s : List Char) : Bool :=
  (tailsL s).any (fun t => !(mrun re t).isEmpty)

/-- `String.prototype.match` for a non-global regex: capture groups of the
first (leftmost, highest-preference) match, or `none`. -/
def reFind (re : RE) : List Char → Option (List (Nat × List Char))
  | [] => match mrun re [] with
      | r :: _ => some r.2
      | [] => none
  | c :: cs => match mrun re (c :: cs) with
      | r :: _ => some r.2
      | [] => reFind re cs

/-- Look up a numbered capture group (`RegExp.$n` / `m[n]`). -/
def capGet (caps : List (Nat × List Char)) (n : Nat) : List Char :=
  match caps.find? (fun p => p.1 = n) with
  | some p => p.2
  | none => []

/-- `String.prototype.matchAll`: captures of every match, scanning left to
right and resuming after each match, with fuel bounded by the input length. -/
def scanAllAux (re : RE) : Nat → List Char → List (List (Nat × List Char))
  | 0, _ => []
  | _ + 1, [] => []
  | f + 1, c :: cs =>
      match mrun re (c :: cs) with
      | r :: _ => r.2 :: scanAllAux re f r.1
      | [] => scanAllAux re f cs

/-- `matchAll` driver at full fuel. -/
def scanAll (re : RE) (s : List Char) : List (List (Nat × List Char)) :=
  scanAllAux re (s.length + 1) s

/-- Does `needle` start `hay`? -/
def startsWithL : List Char → List Char → Bool
  | [], _ => true
  | _ :: _, [] => false
  | a :: as, b :: bs => a = b && startsWithL as bs

/-- `String.prototype.includes`: substring containment. -/
def strContains (hay needle : List Char) : Bool :=
  (tailsL hay).any (fun t => startsWithL needle t)

/-- ASCII lower-casing, for `/i`-flagged patterns. -/
def toLowerL (l : List Char) : List Char := l.map Char.toLower

/-- `String.prototype.trim`. -/
def trimL (l : List Char) : List Char :=
  ((l.dropWhile isSpaceChar).reverse.dropWhile isSpaceChar).reverse

/-- `parseInt` on the digits captured by a `(\d+)` group. -/
def natOfDigits (l : List Char) : Nat :=
  l.foldl (fun acc c => acc * 10 + (c.toNat - '0'.toNat)) 0

/-- Split a character list at every occurrence of `sep`; the splitting
behind `text.split('\n')` (an empty text yields one empty piece, a trailing
separator yields a trailing empty piece, exactly as in JavaScript). -/
def splitOnCharL (sep : Char) : List Char → List (List Char)
  | [] => [[]]
  | c :: cs =>
      if c = sep then [] :: splitOnCharL sep cs
      else
        match splitOnCharL sep cs with
        | h :: t => (c :: h) :: t
        | [] => [[c]]

/-- `text.split('\n')`, the line decomposition used throughout the source. -/
def splitLines (s : String) : List String :=
  (splitOnCharL '\n' s.data).map (fun l => String.mk l)

/-- `lines.join('\n')`. -/
def joinLines : List String → String
  | [] => ""
  | [x] => x
  | x :: rest => x ++ "\n" ++ joinLines rest

/-- Resolve one `Array.prototype.slice` index against a length, following
JavaScript: negative indices count from the end, and indices are clamped to
`[0, len]`. -/
def jsRel (len : Nat) (i : Int) : Nat :=
  if i < 0 then ((len : Int) + i).toNat else min i.toNat len

/-- Sequence a list of patterns. -/
def reSeq (l : List RE) : RE :=
  match l with
  | [] => .eps
  | [a] => a
  | a :: rest => .seq a (reSeq rest)

/-- Alternate a list of patterns, left preference first. -/
def reAlt (l : List RE) : RE :=
  match l with
  | [] => .eps
  | [a] => a
  | a :: rest => .alt a (reAlt rest)

/-- A literal string pattern. -/
def reLit (s : String) : RE := reSeq (s.data.map RE.lit)

/-- `\s*`. -/
def ws : RE := .starCls isSpaceChar

/-- `\s+`. -/
def ws1 : RE := .seq (.cls isSpaceChar) ws

/-- `\w+`. -/
def wd1 : RE := .seq (.cls isWordChar) (.starCls isWordChar)

/-- `\d+`. -/
def dg1 : RE := .seq (.cls Char.isDigit) (.starCls Char.isDigit)

/-- `[^c]+` for a single excluded character. -/
def ncls (c : Char) : RE := .seq (.cls (· ≠ c)) (.starCls (· ≠ c))

/-! ## Static diagnostic scanner (`src/utils/logicalErrors.ts`) -/

/-- The closed error taxonomy of `logicalErrors.ts`. -/
inductive ErrorType where
  | INTEGER_OVERFLOW
  | NULL_POINTER
  | ARRAY_INDEX_OUT_OF_BOUNDS
  | INFINITE_RECURSION
  | OFF_BY_ONE
  | DIVISION_BY_ZERO
  | STRING_EQUALITY
  | OTHER_LOGICAL
deriving DecidableEq, Repr

/-- Diagnostic severity. -/
inductive Severity where
  | warning
  | error
deriving DecidableEq, Repr

/-- One diagnostic produced by the scanner (`LogicalError` in the source). -/
structure LogicalError where
  line : Int
  message : String
  severity : Severity
  errorType : Option ErrorType
deriving DecidableEq, Repr

/-- `/while\s*\(\s*true\s*\)/` -/
def reWhileTrue : RE := reSeq [reLit "while", ws, .lit '(', ws, reLit "true", ws, .lit ')']

/-- `/for\s*\(\s*;\s*;\s*\)/` -/
def reForSS : RE := reSeq [reLit "for", ws, .lit '(', ws, .lit ';', ws, .lit ';', ws, .lit ')']

/-- `/\/\s*0\b/` -/
def reDivZero : RE := reSeq [.lit '/', ws, .lit '0', .notWordAhead]

/-- `/String\s+\w+/` -/
def reStringDecl : RE := reSeq [reLit "String", ws1, wd1]

/-- `/"\s*==\s*"/` -/
def reQuoteEqQuote : RE := reSeq [.lit '"', ws, reLit "==", ws, .lit '"']

/-- `/\w+\s*==\s*"/` -/
def reWordEqQuote : RE := reSeq [wd1, ws, reLit "==", ws, .lit '"']

/-- `/\([^)]+\)\s*\/\s*\d+/` -/
def reParenDivNum : RE := reSeq [.lit '(', ncls ')', .lit ')', ws, .lit '/', ws, dg1]

/-- `/=\s*[^;]+(a \+ b)\s*\/\s*2/` -/
def reAvgPattern : RE := reSeq [.lit '=', ws, ncls ';', reLit "a + b", ws, .lit '/', ws, .lit '2']

/-- `/(for|while)\s*\([^)]*\)\s*;/` -/
def reLoopSemi : RE :=
  reSeq [.alt (reLit "for") (reLit "while"), ws, .lit '(', .starCls (· ≠ ')'), .lit ')', ws, .lit ';']

/-- `/for\s*\(\s*int\s+\w+\s*=\s*1\s*;/` -/
def reForStart1 : RE :=
  reSeq [reLit "for", ws, .lit '(', ws, reLit "int", ws1, wd1, ws, .lit '=', ws, .lit '1', ws, .lit ';']

/-- `/\/\s*2\s*==\s*0/` -/
def reHalfEqZero : RE := reSeq [.lit '/', ws, .lit '2', ws, reLit "==", ws, .lit '0']

/-- `/while\s*\(\s*\w+\s*>\s*9\s*\)/` -/
def reWhileGt9 : RE := reSeq [reLit "while", ws, .lit '(', ws, wd1, ws, .lit '>', ws, .lit '9', ws, .lit ')']

/-- `/%\s*10/` -/
def reMod10 : RE := reSeq [.lit '%', ws, reLit "10"]

/-- `/a\s*=\s*b\s*;/` -/
def reAEqB : RE := reSeq [.lit 'a', ws, .lit '=', ws, .lit 'b', ws, .lit ';']

/-- `/b\s*=\s*a\s*\+\s*b/` -/
def reBEqAPlusB : RE := reSeq [.lit 'b', ws, .lit '=', ws, .lit 'a', ws, .lit '+', ws, .lit 'b']

/-- `/while\s*\(\s*(\w+)\s*<\s*(\w+)\s*\)/` -/
def reWhileLtCaps : RE :=
  reSeq [reLit "while", ws, .lit '(', ws, .group 1 wd1, ws, .lit '<', ws, .group 2 wd1, ws, .lit ')']

/-- `/(\w+)\[i\]\[j\]\s*=\s*(\w+)\[i\]\[j\]\s*\+\s*(\w+)\[j\]\[i\]/` -/
def reMatrix : RE :=
  reSeq [wd1, reLit "[i][j]", ws, .lit '=', ws, wd1, reLit "[i][j]", ws, .lit '+', ws, wd1, reLit "[j][i]"]

/-- `/\*\s*\(\s*\w+\s*\+\s*1\s*\)\s*\/\s*2\s*\+\s*1/` -/
def reSumNat : RE :=
  reSeq [.lit '*', ws, .lit '(', ws, wd1, ws, .lit '+', ws, .lit '1', ws, .lit ')', ws,
         .lit '/', ws, .lit '2', ws, .lit '+', ws, .lit '1']

/-- `/base\s*=\s*base\s*\*\s*8/` -/
def reBase8 : RE := reSeq [reLit "base", ws, .lit '=', ws, reLit "base", ws, .lit '*', ws, .lit '8']

/-- `/int\s+count\s*=\s*1\s*;/` -/
def reCount1 : RE := reSeq [reLit "int", ws1, reLit "count", ws, .lit '=', ws, .lit '1', ws, .lit ';']

/-- `/new\s+\w+\[(\d+)\]/` -/
def reNewArr : RE := reSeq [reLit "new", ws1, wd1, .lit '[', .group 1 dg1, .lit ']']

/-- `/(\w+)\s*=\s*new/` -/
def reVarEqNew : RE := reSeq [.group 1 wd1, ws, .lit '=', ws, reLit "new"]

/-- Dynamically-built loop regex from the contextual array-bounds rule:
`` new RegExp(`for\\s*\\([^;]+;\\s*\\w+\\s*<=\\s*${size}\\s*;`) ``. -/
def reLoopLeSize (size : Nat) : RE :=
  reSeq [reLit "for", ws, .lit '(', ncls ';', .lit ';', ws, wd1, ws, reLit "<=", ws,
         reLit (toString size), ws, .lit ';']

/-- Dynamically-built usage regex: `` new RegExp(`${arrName}\\[(\\d+)\\]`) ``. -/
def reArrUsage (name : List Char) : RE :=
  reSeq [reSeq (name.map RE.lit), .lit '[', .group 1 dg1, .lit ']']

/-- `/fact\s*=\s*fact\s*\*\s*i/` -/
def reFactMul : RE := reSeq [reLit "fact", ws, .lit '=', ws, reLit "fact", ws, .lit '*', ws, .lit 'i']

/-- `/for\s*\([^;]+;\s*i\s*<\s*n/` -/
def reFactLoop : RE := reSeq [reLit "for", ws, .lit '(', ncls ';', .lit ';', ws, .lit 'i', ws, .lit '<', ws, .lit 'n']

/-- `/sum\s*=\s*sum\s*\+\s*d\s*\*\s*d\s*;/` -/
def reArmstrong : RE :=
  reSeq [reLit "sum", ws, .lit '=', ws, reLit "sum", ws, .lit '+', ws, .lit 'd', ws, .lit '*', ws, .lit 'd', ws, .lit ';']

/-- `Array.prototype.findIndex`, as an `Option`-valued index. -/
def findIndexL (p : α → Bool) : List α → Option Nat
  | [] => none
  | x :: xs => if p x then some 0 else (findIndexL p xs).map (· + 1)

/-- `for (j = i + 1; j < L; j++)`: the list `[s, s+1, …, s+n-1]`. -/
def jRange (s n : Nat) : List Nat :=
  match n with
  | 0 => []
  | m + 1 => s :: jRange (s + 1) m

/-- A rule's contribution: its diagnostic when its trigger holds, nothing
otherwise (`if (cond) errors.push(e)` in the source). -/
def guard1 (b : Bool) (e : LogicalError) : List LogicalError :=
  if b then [e] else []

/-- The per-line local rules of `detectLogicalErrors` (rules 1-13 of the main
loop), evaluated at line index `i` (0-based), in source order. -/
def lineChecks (code : String) (lines : List String) (i : Nat) : List LogicalError :=
  let line := (lines.getD i "").data
  let lineNum : Int := (i : Int) + 1
  let codeL := code.data
  guard1 ((reTest reWhileTrue line || reTest reForSS line)
      && !(strContains line "break".data) && !(strContains (codeL.drop i) "break".data))
    ⟨lineNum, "Potential infinite loop detected. \x27while(true)\x27 or \x27for(;;)\x27 logic with no obvious break.",
      .warning, some .INFINITE_RECURSION⟩
  ++ guard1 (reTest reDivZero line)
    ⟨lineNum, "Division by zero detected.", .error, some .DIVISION_BY_ZERO⟩
  ++ guard1 (line.contains '"' && strContains line "==".data
        && !(["int", "boolean", "char", "double", "float", "long", "short", "byte"].any
              (fun t => strContains line t.data))
        && (reTest reStringDecl codeL || reTest reQuoteEqQuote line || reTest reWordEqQuote line))
    ⟨lineNum, "String comparison using \x27==\x27. In Java, \x27==\x27 compares object references. Use \x27.equals()\x27 to compare string content.",
      .warning, some .STRING_EQUALITY⟩
  ++ guard1 (reTest reParenDivNum line
        && (strContains line "double".data || strContains line "float".data || reTest reAvgPattern line))
    ⟨lineNum, "Potential integer division loss. If operands are integers, the decimal part will be truncated before assigning to double/float. Use \x272.0\x27 or cast to double.",
      .warning, some .OTHER_LOGICAL⟩
  ++ guard1 (reTest reLoopSemi line && !(startsWithL "do".data (trimL line)))
    ⟨lineNum, "Possible logical error: Semicolon after loop. This makes the loop body empty.",
      .warning, some .OTHER_LOGICAL⟩
  ++ guard1 (reTest reForStart1 line && strContains line ".length".data)
    ⟨lineNum, "Loop starts at index 1. Arrays in Java are 0-indexed. You might be skipping the first element.",
      .warning, some .OFF_BY_ONE⟩
  ++ guard1 (reTest reHalfEqZero line)
    ⟨lineNum, "Logic Error: Using division \x27/ 2\x27 checks if half the number is 0. To check for Even/Odd, use modulus \x27% 2\x27.",
      .warning, some .OTHER_LOGICAL⟩
  ++ guard1 (reTest reWhileGt9 line && reTest reMod10 codeL)
    ⟨lineNum, "Logical Error in Loop detected. \x27while(n > 9)\x27 will skip the last digit processing. Use \x27while(n > 0)\x27 or \x27while(n != 0)\x27.",
      .warning, some .OFF_BY_ONE⟩
  ++ guard1 (reTest reAEqB line && reTest reBEqAPlusB ((lines.getD (i + 1) "").data))
    ⟨lineNum + 1, "Fibonacci Logic Error. You updated \x27a\x27 before calculating \x27b\x27, so \x27b\x27 is using the WRONG \x27a\x27. Use a temporary variable.",
      .error, some .OTHER_LOGICAL⟩
  ++ (match reFind reWhileLtCaps line with
      | some caps =>
        guard1 (strContains codeL (capGet caps 1 ++ " = 0".data)
            && strContains codeL (capGet caps 2 ++ " =".data)
            && strContains codeL "/ 2".data)
          ⟨lineNum, "Binary Search Logic: \x27while(low < high)\x27 determines the loop. Usually \x27low <= high\x27 is required to check the last element.",
            .warning, some .OFF_BY_ONE⟩
      | none => [])
  ++ guard1 (reTest reMatrix line)
    ⟨lineNum, "Matrix Addition Logic Error. You are adding \x27a[i][j]\x27 with \x27b[j][i]\x27. This adds the Transpose of b, not b itself. Use \x27b[i][j]\x27.",
      .error, some .OTHER_LOGICAL⟩
  ++ guard1 (reTest reSumNat line)
    ⟨lineNum, "Formula Error. Sum of natural numbers is n*(n+1)/2. You added an extra \x27+ 1\x27 at the end.",
      .warning, some .OTHER_LOGICAL⟩
  ++ guard1 (reTest reBase8 line
        && (strContains (toLowerL codeL) "bin".data || strContains (toLowerL codeL) "binary".data))
    ⟨lineNum, "Binary Conversion Error. Input is Binary (Base 2) but you are multiplying base by 8 (Octal). Use \x27base * 2\x27.",
      .error, some .OTHER_LOGICAL⟩
  ++ guard1 (reTest reCount1 line && strContains codeL "/ 10".data)
    ⟨lineNum, "Initialization Error. \x27count\x27 starts at 1. If the loop counts digits, it might result in an extra count. Usually start from 0.",
      .warning, some .OFF_BY_ONE⟩

/-- The contextual array-bounds rule of `detectLogicalErrors`: from an
allocation `… = new T[size]` on line `i`, scan every later line for a loop
bound `<= size` (off-by-one) and for a literal access `name[k]` with
`k >= size` (out of bounds). -/
def contextChecks (lines : List String) (i : Nat) : List LogicalError :=
  let line := (lines.getD i "").data
  match reFind reNewArr line with
  | none => []
  | some caps =>
    let size := natOfDigits (capGet caps 1)
    match reFind reVarEqNew line with
    | none => []
    | some caps2 =>
      let arrName := capGet caps2 1
      (jRange (i + 1) (lines.length - (i + 1))).flatMap (fun j =>
        let loopLine := (lines.getD j "").data
        guard1 (reTest (reLoopLeSize size) loopLine)
          ⟨(j : Int) + 1,
            "Potential off-by-one error. Loop runs up to index " ++ toString size
              ++ " (inclusive), but array size is " ++ toString size
              ++ ". Last index is " ++ toString ((size : Int) - 1) ++ ".",
            .warning, some .OFF_BY_ONE⟩
        ++ (match reFind (reArrUsage arrName) loopLine with
            | some c =>
              guard1 (size ≤ natOfDigits (capGet c 1))
                ⟨(j : Int) + 1,
                  "Array index out of bounds. Array size " ++ toString size
                    ++ ", accessed index " ++ toString (natOfDigits (capGet c 1)) ++ ".",
                  .error, some .ARRAY_INDEX_OUT_OF_BOUNDS⟩
            | none => []))

/-- The code-wide factorial loop heuristic, which reports on the line found
by `findIndex`. -/
def factorialCheck (code : String) (lines : List String) : List LogicalError :=
  if reTest reFactMul code.data && reTest reFactLoop code.data then
    match findIndexL (fun l => reTest reFactLoop l.data) lines with
    | some idx =>
      [⟨(idx : Int) + 1,
        "Potential loop range error for Factorial. \x27i < n\x27 stops before \x27n\x27. Usually Factorial includes \x27n\x27 (i <= n).",
        .warning, some .OFF_BY_ONE⟩]
    | none => []
  else []

/-- The code-wide Armstrong-number heuristic. -/
def armstrongCheck (code : String) (lines : List String) : List LogicalError :=
  if reTest reArmstrong code.data then
    match findIndexL (fun l => reTest reArmstrong l.data) lines with
    | some idx =>
      [⟨(idx : Int) + 1,
        "Logic Error: Armstrong number check usually requires cubing digits (d*d*d) for 3-digit numbers, or Math.pow().",
        .warning, some .OTHER_LOGICAL⟩]
    | none => []
  else []

/-- The part of `detectLogicalErrors` (the first revision staged in
`src/utils/logicalErrors.ts`) that actually executes: the main `for` loop
over the line indices — rules 1-13 plus the contextual array-bounds rule —
followed by the two code-wide heuristics placed after the loop (the
factorial check at lines 225-235 and the Armstrong check at lines 238-249).
These are the diagnostics accumulated into `errors` before control reaches
line 253. -/
def detectLogicalErrorsLoop (code : String) : List LogicalError :=
  let lines := splitLines code
  ((List.range lines.length).flatMap (fun i => lineChecks code lines i ++ contextChecks lines i))
    ++ factorialCheck code lines ++ armstrongCheck code lines

/-- A thrown JavaScript runtime error. -/
inductive JsError where
  | referenceError (name : String)
deriving DecidableEq, Repr

/-- The error every call of the first-revision `detectLogicalErrors`
throws.  Its main `for` loop closes at line 220, but rules 14-19 (lines
251-318) sit after the loop while still referencing the loop-local
`const line` / `const lineNum`: the first such reference is rule 14's
condition at line 253, `if (/int\[\]\s+(\w+)\s*=\s*(\w+)\s*;/.test(line))`,
where evaluating `line` outside its block scope throws a `ReferenceError`.
(The bundler transpiles without type-checking, so the file ships and fails
at runtime; the later revision staged in the same file moves these rules
inside the loop.) -/
def scannerScopeError : JsError := .referenceError "line"

/-- `detectLogicalErrors` from `src/utils/logicalErrors.ts` (first
revision, lines 19-326): the loop and the two code-wide heuristics run and
accumulate diagnostics, then line 253 evaluates the out-of-scope `line` and
throws, discarding the accumulated array.  Every call therefore ends in
`scannerScopeError` instead of returning a diagnostic list. -/
def detectLogicalErrors (code : String) : Except JsError (List LogicalError) :=
  let _errors := detectLogicalErrorsLoop code
  Except.error scannerScopeError

/-! ## Execution tier chain (`src/utils/compiler.ts`, `pistonClient`) -/

/-- The `outputType` vocabulary of `CompilerResult` in `compiler.ts`.  Note
that it has exactly these four values; no other classification exists. -/
inductive OutputType where
  | success
  | error
  | info
  | warning
deriving DecidableEq, Repr

/-- `CompilerResult` from `compiler.ts`.  The optional TS fields
`isForeignLanguage?`/`detectedLanguage?` are modelled with `undefined` as
`false`/`none` (both are falsy exactly like `undefined` in the guards that
read them). -/
structure CompilerResult where
  output : String
  exitCode : Int
  outputType : OutputType
  logicalErrors : List LogicalError
  isForeignLanguage : Bool
  detectedLanguage : Option String
deriving DecidableEq, Repr

/-- `/class\s+\w+/` -/
def reClassDecl : RE := reSeq [reLit "class", ws1, wd1]

/-- `/public\s+static\s+void\s+main\s*\(\s*String\s*\[\s*\]\s*\w+\s*\)/` -/
def reMainMethod : RE :=
  reSeq [reLit "public", ws1, reLit "static", ws1, reLit "void", ws1, reLit "main", ws,
         .lit '(', ws, reLit "String", ws, .lit '[', ws, .lit ']', ws, wd1, ws, .lit ')']

/-- `/System\.out\.println\([^)]+\)\s*\n/` -/
def rePrintlnNoSemi : RE :=
  reSeq [reLit "System.out.println", .lit '(', ncls ')', .lit ')', ws, .lit '\n']

/-- `/System\.out\.println\([^)]+\);/` -/
def rePrintlnSemi : RE :=
  reSeq [reLit "System.out.println", .lit '(', ncls ')', .lit ')', .lit ';']

/-- `/System\.out\.println\s*\(\s*"([^"]*)"\s*\);/g` -/
def rePrintlnLiteral : RE :=
  reSeq [reLit "System.out.println", ws, .lit '(', ws, .lit '"',
         .group 1 (.starCls (· ≠ '"')), .lit '"', ws, .lit ')', .lit ';']

/-- Count the occurrences of one character (`(code.match(/{/g) || []).length`). -/
def countChar (c : Char) (l : List Char) : Nat := (l.filter (· = c)).length

/-- `localSimulation` from `compiler.ts`: the terminal local heuristic tier.
Its first statement calls the static scanner (the throw propagates — the
call is not wrapped in any `try`); only with a returned diagnostic list
would the cascade of syntax heuristics and the `System.out.println`
simulation run. -/
def localSimulation (code : String) (userInputs : List String) :
    Except JsError CompilerResult :=
  match detectLogicalErrors code with
  | .error e => .error e
  | .ok logicalErrors => .ok (
  let codeL := code.data
  if !(reTest reClassDecl codeL) then
    ⟨"Error: Could not find or load main class. Ensure you have a \x27public class Main\x27.",
      1, .error, logicalErrors, false, none⟩
  else if !(reTest reMainMethod codeL) then
    ⟨"Error: Main method not found in class. Please define \x27public static void main(String[] args)\x27.",
      1, .error, logicalErrors, false, none⟩
  else if reTest rePrintlnNoSemi codeL && !(reTest rePrintlnSemi codeL) then
    ⟨"error: \x27;\x27 expected", 1, .error, logicalErrors, false, none⟩
  else if countChar '\x7d' codeL < countChar '\x7b' codeL then
    ⟨"error: reached end of file while parsing", 1, .error, logicalErrors, false, none⟩
  else
    let printMatches := scanAll rePrintlnLiteral codeL
    let runOutput :=
      if 0 < printMatches.length then
        printMatches.foldl (fun acc caps => acc ++ String.mk (capGet caps 1) ++ "\n") ""
      else if strContains codeL "System.out.println".data then
        "(Output simulated: Program ran successfully)"
      else
        "Program executed. (No output)"
    ⟨String.mk (trimL runOutput.data), 0, .success, logicalErrors, false, none⟩)

/-- The parsed JSON shape the AI-simulated compiler tier returns
(`response` in `runJavaCompilerSimulation`); optional fields optional. -/
structure GroqSimResponse where
  output : String
  exitCode : Int
  logicalErrors : Option (List LogicalError)
  isForeignLanguage : Option Bool
  detectedLanguage : Option String
deriving DecidableEq, Repr

/-- `runJavaCompilerSimulation` from `compiler.ts` (the orchestrator the
spec's fallback scenario cites — note it consults no remote tier; the
Piston-based revisions in the repository fall back to their own
`fallbackSimulation` or to a hard error result instead).  The AI tier's
outcome is passed in explicitly: `Except.error` models `callGroqAPI`
throwing or its response failing to parse, and the `catch` block then
returns `localSimulation(code, userInputs)` — whose own throw, not being
caught, propagates to the caller. -/
def runJavaCompilerSimulation (ai : Except Unit GroqSimResponse)
    (code : String) (userInputs : List String) : Except JsError CompilerResult :=
  match ai with
  | .ok r =>
      .ok ⟨r.output, r.exitCode, if r.exitCode = 0 then .success else .error,
        r.logicalErrors.getD [], r.isForeignLanguage.getD false, r.detectedLanguage⟩
  | .error _ => localSimulation code userInputs

/-- The remote sandbox request timeout from `pistonClient`'s
`executeJavaCode`: `setTimeout(() => controller.abort(), 5000)`.  On abort,
`executeJavaCode` throws `pistonTimeoutMessage`; like its HTTP and
transport failures, this is thrown to the calling orchestrator. -/
def pistonTimeoutMs : Nat := 5000

/-- The error message `executeJavaCode` throws when the 5-second timer
aborts the request. -/
def pistonTimeoutMessage : String :=
  "Execution timed out (limit: 5 seconds). Infinite loop detected?"

/-! ## Mistake frequency tracker (`src/utils/mistakeTracker.ts`) -/

/-- `(expected|missing)\s*(';'|semicolon)`, case-insensitive (applied to
lower-cased text). -/
def reMistakeSemi : RE :=
  reSeq [reAlt [reLit "expected", reLit "missing"], ws, reAlt [reLit "\x27;\x27", reLit "semicolon"]]

/-- `(expected|missing)\s*('}'|brace|curly)` -/
def reMistakeCloseBrace : RE :=
  reSeq [reAlt [reLit "expected", reLit "missing"], ws,
         reAlt [reLit "\x27\x7d\x27", reLit "brace", reLit "curly"]]

/-- `(expected|missing)\s*('{')` -/
def reMistakeOpenBrace : RE :=
  reSeq [reAlt [reLit "expected", reLit "missing"], ws, reLit "\x27\x7b\x27"]

/-- `(expected|missing)\s*('\)'|parenthesis)` -/
def reMistakeCloseParen : RE :=
  reSeq [reAlt [reLit "expected", reLit "missing"], ws, reAlt [reLit "\x27)\x27", reLit "parenthesis"]]

/-- `(expected|missing)\s*('\(')` -/
def reMistakeOpenParen : RE :=
  reSeq [reAlt [reLit "expected", reLit "missing"], ws, reLit "\x27(\x27"]

/-- `(missing terminating|expected|unclosed)\s*(string|literal|quote|")|not a statement` —
note the top-level alternation with `not a statement`. -/
def reMistakeQuote : RE :=
  .alt (reSeq [reAlt [reLit "missing terminating", reLit "expected", reLit "unclosed"], ws,
               reAlt [reLit "string", reLit "literal", reLit "quote", reLit "\""]])
       (reLit "not a statement")

/-- `(expected|missing)\s*('\['|bracket)` -/
def reMistakeOpenBracket : RE :=
  reSeq [reAlt [reLit "expected", reLit "missing"], ws, reAlt [reLit "\x27[\x27", reLit "bracket"]]

/-- `(expected|missing)\s*('\]'|bracket)` -/
def reMistakeCloseBracket : RE :=
  reSeq [reAlt [reLit "expected", reLit "missing"], ws, reAlt [reLit "\x27]\x27", reLit "bracket"]]

/-- `Preprocessor directive missing '#'`, case-insensitive. -/
def reMistakeHash : RE := reLit "preprocessor directive missing \x27#\x27"

/-- `ERROR_PATTERNS` from `mistakeTracker.ts`: symbol key paired with its
signature regex, in source order. -/
def ERROR_PATTERNS : List (String × RE) :=
  [(";", reMistakeSemi), ("\x7d", reMistakeCloseBrace), ("\x7b", reMistakeOpenBrace),
   (")", reMistakeCloseParen), ("(", reMistakeOpenParen), ("\"", reMistakeQuote),
   ("[", reMistakeOpenBracket), ("]", reMistakeCloseBracket), ("#", reMistakeHash)]

/-- The persisted value under the `mistake_counts` key: either a parseable
mapping or a corrupted blob. -/
inductive CountsBlob where
  | good (m : List (String × Nat))
  | corrupt
deriving DecidableEq

/-- The slice of `localStorage` the tracker owns: the counts key and the
last-seen key (absent keys are `none`). -/
structure MTStorage where
  counts : Option CountsBlob
  lastSeen : Option String
deriving DecidableEq

/-- `loadCounts`: read the mapping; on parse failure remove the corrupted
key and return an empty mapping (note the state change on the corrupt
path). -/
def loadCounts (st : MTStorage) : List (String × Nat) × MTStorage :=
  match st.counts with
  | none => ([], st)
  | some (.good m) => (m, st)
  | some .corrupt => ([], { st with counts := none })

/-- `counts[p.char] = (counts[p.char] || 0) + 1` on a JS object modelled as
an insertion-ordered association list. -/
def bump : List (String × Nat) → String → List (String × Nat)
  | [], k => [(k, 1)]
  | (a, n) :: rest, k => if a = k then (a, n + 1) :: rest else (a, n) :: bump rest k

/-- One `ERROR_PATTERNS.forEach` step of `trackMistakes`. -/
def trackStep (text : List Char) (acc : List (String × Nat) × Bool) (p : String × RE) :
    List (String × Nat) × Bool :=
  if reTest p.2 text then (bump acc.1 p.1, true) else acc

/-- `trackMistakes` from `mistakeTracker.ts`.  The ambient inputs are
explicit: `now` is `new Date().toISOString()` and `st` the current
`localStorage` slice.  Returns the boolean result and the updated storage:
both keys are written only when at least one signature matched. -/
def trackMistakes (output : String) (now : String) (st : MTStorage) : Bool × MTStorage :=
  if output = "" then (false, st)
  else
    let load := loadCounts st
    let res := ERROR_PATTERNS.foldl (trackStep (toLowerL output.data)) (load.1, false)
    if res.2 then (true, ⟨some (.good res.1), some now⟩)
    else (false, load.2)

/-- The count persisted for a symbol in a storage state (0 when the mapping
is absent or corrupted). -/
def countOf (st : MTStorage) (k : String) : Nat :=
  match st.counts with
  | some (.good m) => ((m.lookup k).getD 0)
  | _ => 0

/-- The count for a symbol in the mapping as `loadCounts` would return it. -/
def loadedCount (st : MTStorage) (k : String) : Nat :=
  (((loadCounts st).1.lookup k).getD 0)

/-! ## Run handler and patch applier (`src/pages/Index.tsx`) -/

/-- `minimal_fix_patches[i]` / `minimal_fix_patch`: a line-addressed
replacement.  Line numbers are arbitrary integers because they come from an
unvalidated AI response. -/
structure Patch where
  line_start : Int
  line_end : Int
  replacement : String
deriving DecidableEq, Repr

/-- The fields of the AI explanation that `handleApplyPatch` consults, in
priority order. -/
structure AIExplanationModel where
  corrected_code : Option String
  minimal_fix_patches : Option (List Patch)
  minimal_fix_patch : Option Patch
deriving DecidableEq

/-- What an invocation of `handleApplyPatch` leaves behind: the new editor
text (`setCode`) and the green-highlight line numbers (`setFixedLines`). -/
structure ApplyOutcome where
  code : String
  fixedLines : List Int
deriving DecidableEq, Repr

/-- JS string truthiness of an optional string: present and non-empty. -/
def truthyStr : Option String → Bool
  | some s => s ≠ ""
  | none => false

/-- One splice of `handleApplyPatch`:
`[...lines.slice(0, line_start - 1), ...replacement.split('\n'), ...lines.slice(line_end)]`
with JavaScript slice semantics. -/
def applyOnePatch (lines : List String) (p : Patch) : List String :=
  let before := lines.take (jsRel lines.length (p.line_start - 1))
  let after := lines.drop (jsRel lines.length p.line_end)
  before ++ splitLines p.replacement ++ after

/-- Stable insertion of a patch into a list sorted by descending
`line_start` (inserted after existing entries with a `line_start` at least
as large, which is where a stable sort keeps it). -/
def insDesc (p : Patch) : List Patch → List Patch
  | [] => [p]
  | q :: rest => if p.line_start ≤ q.line_start then q :: insDesc p rest else p :: q :: rest

/-- `[...patches].sort((a, b) => b.line_start - a.line_start)`: a stable
sort by descending `line_start`. -/
def sortPatchesDesc (ps : List Patch) : List Patch :=
  ps.foldl (fun acc p => insDesc p acc) []

/-- The changed-line markers one patch contributes:
`line_start + k` for each replacement line `k`. -/
def patchFixedLines (p : Patch) : List Int :=
  (List.range (splitLines p.replacement).length).map (fun k => p.line_start + (k : Int))

/-- The `for (const patch of sortedPatches)` loop of `handleApplyPatch`:
splice each patch into the current line list and append its changed-line
markers. -/
def applyPatchesLoop (acc : List String × List Int) : List Patch → List String × List Int
  | [] => acc
  | p :: rest => applyPatchesLoop (applyOnePatch acc.1 p, acc.2 ++ patchFixedLines p) rest

/-- `for (let i = startLine; i <= endLine; i++)` over integers. -/
def intRangeIncl (a b : Int) : List Int :=
  (List.range ((b - a + 1).toNat)).map (fun k => a + (k : Int))

/-- Priorities 2 and 3 of `handleApplyPatch` (patch array, then legacy
single patch, else no-op). -/
def applyPatchBranches (expl : AIExplanationModel) (code : String) : Option ApplyOutcome :=
  match expl.minimal_fix_patches with
  | some ps =>
      let sorted := sortPatchesDesc ps
      let r := applyPatchesLoop (splitLines code, []) sorted
      some ⟨joinLines r.1, r.2⟩
  | none =>
      match expl.minimal_fix_patch with
      | some p =>
          some ⟨joinLines (applyOnePatch (splitLines code) p),
                intRangeIncl p.line_start (p.line_start + ((splitLines p.replacement).length : Int) - 1)⟩
      | none => none

/-- `handleApplyPatch` from `Index.tsx`: a truthy `corrected_code` replaces
the whole document and marks every line changed; otherwise the priority
branches run.  A falsy (empty) `corrected_code` falls through, exactly like
the JS `if (aiExplanation.corrected_code)` guard. -/
def handleApplyPatch (expl : AIExplanationModel) (code : String) : Option ApplyOutcome :=
  match expl.corrected_code with
  | some s =>
      if s ≠ "" then
        some ⟨s, (List.range (splitLines s).length).map (fun i => (i : Int) + 1)⟩
      else applyPatchBranches expl code
  | none => applyPatchBranches expl code

/-- `/:(\d+):\s+error:/g` -/
def reErrLine : RE := reSeq [.lit ':', .group 1 dg1, .lit ':', ws1, reLit "error", .lit ':']

/-- The error-line extraction of `handleRunCode` (all matches of
`/:(\d+):\s+error:/g`, each captured number parsed). -/
def extractErrorLines (output : String) : List Int :=
  (scanAll reErrLine output.data).map (fun caps => ((natOfDigits (capGet caps 1) : Nat) : Int))

/-- The observable per-request effects of `handleRunCode` after the compiler
result arrives: console state, whether the foreign-language prompt was
surfaced, the red error-line highlights (none = that stage never ran),
whether history was saved, the mistake tracker observed the output, and an
AI analysis was requested. -/
structure RunFlow where
  consoleOutput : String
  exitCode : Int
  foreignLanguage : Option String
  errorLines : Option (List Int)
  historySaved : Bool
  mistakesObserved : Bool
  aiAnalysisRequested : Bool
deriving DecidableEq

/-- `handleRunCode` control flow from `Index.tsx` (after
`runJavaCompilerSimulation` returns): a foreign-language result with a
truthy language name returns immediately after the console update; otherwise
error-line extraction, history, mistake tracking and an AI request (in both
the failure-analysis and the success-audit branch) all run. -/
def handleRunCodeFlow (result : CompilerResult) : RunFlow :=
  if result.isForeignLanguage && truthyStr result.detectedLanguage then
    { consoleOutput := result.output, exitCode := result.exitCode,
      foreignLanguage := result.detectedLanguage, errorLines := none,
      historySaved := false, mistakesObserved := false, aiAnalysisRequested := false }
  else
    { consoleOutput := result.output, exitCode := result.exitCode,
      foreignLanguage := none,
      errorLines := some
        (if 0 < result.logicalErrors.length then
          (result.logicalErrors.map (·.line)).filter (fun l => 0 < l)
        else if result.exitCode ≠ 0 then extractErrorLines result.output
        else []),
      historySaved := true, mistakesObserved := true, aiAnalysisRequested := true }

/-! ## Theorems for the specification claims -/

set_option maxRecDepth 100000

/-- The off-by-one scenario document, rendered one statement per line (the
form in which the scanner, a per-line tool, receives documents). -/
def offByOneDoc : String :=
  "int[] arr = new int[5];\nfor(int i=0;i<=5;i++)\x7b arr[i]=i; \x7d"

/-- The same document extended with a literal out-of-bounds access. -/
def offByOneDocWithAccess : String := offByOneDoc ++ "\nint y = arr[5];"

/-- Claim C6 (code bug): on the scenario document `int[] arr = new int[5];`
/ `for(int i=0;i<=5;i++){ arr[i]=i; }` (the for loop is line 2), the cited
`detectLogicalErrors` revision throws its scope `ReferenceError` instead of
yielding the claimed diagnostics — on this input and on every other.  The
claim is the evident intent: the diagnostics accumulated before the throw
(and returned verbatim by the repaired later revision's loop) contain
exactly the claimed `OFF_BY_ONE` entry on the for line, and, once a literal
`arr[5]` access appears on a further line, the claimed
`ARRAY_INDEX_OUT_OF_BOUNDS` entry on that line. -/
theorem scanner_scope_bug_scenario :
    detectLogicalErrors offByOneDoc = Except.error scannerScopeError
    ∧ detectLogicalErrors offByOneDocWithAccess = Except.error scannerScopeError
    ∧ (∃ e ∈ detectLogicalErrorsLoop offByOneDoc,
        e.errorType = some ErrorType.OFF_BY_ONE ∧ e.line = 2)
    ∧ (∃ e ∈ detectLogicalErrorsLoop offByOneDocWithAccess,
        e.errorType = some ErrorType.OFF_BY_ONE ∧ e.line = 2)
    ∧ (∃ e ∈ detectLogicalErrorsLoop offByOneDocWithAccess,
        e.errorType = some ErrorType.ARRAY_INDEX_OUT_OF_BOUNDS ∧ e.line = 3) := by
  refine ⟨rfl, rfl, ?_, ?_, ?_⟩ <;> decide

/-- Claim C8 (code bug): the scanner is meant to be deterministic — two
calls on identical input returning identical diagnostic lists — but the
cited `detectLogicalErrors` revision never returns a list at all: every
call, on every input, ends in the same thrown `ReferenceError` (the
out-of-scope `line` at line 253), so in particular no call produces the
list its own loop accumulated.  (The executed part is indeed free of
nondeterminism: the one piece of ambient state the source touches, the
legacy `RegExp.$1`/`RegExp.$2` statics read by the binary-search rule, is
read only immediately after a successful `test` of that same regex, as
modelled in `lineChecks`.) -/
theorem detect_throws_not_lists :
    (∀ d : String, detectLogicalErrors d = Except.error scannerScopeError)
    ∧ detectLogicalErrors "int a = 1;" = Except.error scannerScopeError
    ∧ (∀ l : List LogicalError, detectLogicalErrors "int a = 1;" ≠ Except.ok l) := by
  refine ⟨fun d => rfl, rfl, ?_⟩
  intro l h
  exact Except.noConfusion h

/-- Counterexample to claim C2 as stated: an explanation that carries the
full-replacement string `""` together with a patch array.  JavaScript's
`if (aiExplanation.corrected_code)` guard is falsy on the empty string, so
the patch array is applied instead: the document becomes `"Z\nb"`, not the
full-replacement text `""`. -/
theorem corrected_code_empty_counterexample :
    handleApplyPatch ⟨some "", some [⟨1, 1, "Z"⟩], none⟩ "a\nb"
        = some ⟨"Z\nb", [1]⟩
    ∧ "Z\nb" ≠ "" := by
  constructor
  · decide
  · decide

/-- Claim C2 (amended: the full-replacement string must be non-empty, since
the source tests it for JS truthiness): whenever the explanation carries a
non-empty `corrected_code`, applying the fix yields exactly that text with
every one of its lines marked changed, ignoring whatever
`minimal_fix_patches` and legacy `minimal_fix_patch` are simultaneously
present. -/
theorem corrected_code_wins (expl : AIExplanationModel) (code s : String)
    (hc : expl.corrected_code = some s) (hne : s ≠ "") :
    handleApplyPatch expl code
      = some ⟨s, (List.range (splitLines s).length).map (fun i => (i : Int) + 1)⟩ := by
  unfold handleApplyPatch
  rw [hc]
  simp [hne]

/-- Witness for C2's amended theorem: both patch fields present and ignored. -/
theorem corrected_code_wins_witness :
    handleApplyPatch ⟨some "x\ny", some [⟨1, 1, "Z"⟩], some ⟨2, 2, "W"⟩⟩ "a\nb"
      = some ⟨"x\ny", (List.range (splitLines "x\ny").length).map (fun i => (i : Int) + 1)⟩ :=
  corrected_code_wins ⟨some "x\ny", some [⟨1, 1, "Z"⟩], some ⟨2, 2, "W"⟩⟩ "a\nb" "x\ny" rfl (by decide)

/-- Claim C5: a compilation result carrying a foreign-language detection
(`isForeignLanguage` with a truthy detected language name) makes
`handleRunCode` return right after the console update: no error-line
extraction, no history write, no mistake tracking, no AI analysis. -/
theorem foreign_language_short_circuits (result : CompilerResult) (lang : String)
    (hf : result.isForeignLanguage = true) (hd : result.detectedLanguage = some lang)
    (hne : lang ≠ "") :
    handleRunCodeFlow result
      = { consoleOutput := result.output, exitCode := result.exitCode,
          foreignLanguage := some lang, errorLines := none,
          historySaved := false, mistakesObserved := false, aiAnalysisRequested := false } := by
  unfold handleRunCodeFlow
  rw [hf, hd]
  simp [truthyStr, hne]

/-- Witness for C5 at a concrete foreign-language result. -/
theorem foreign_language_short_circuits_witness :
    handleRunCodeFlow ⟨"Detected Python code.", 1, .error, [], true, some "Python"⟩
      = { consoleOutput := "Detected Python code.", exitCode := 1,
          foreignLanguage := some "Python", errorLines := none,
          historySaved := false, mistakesObserved := false, aiAnalysisRequested := false } :=
  foreign_language_short_circuits ⟨"Detected Python code.", 1, .error, [], true, some "Python"⟩
    "Python" rfl rfl (by decide)

/-- `jsRel` never exceeds the length it resolves against. -/
theorem jsRel_le (len : Nat) (i : Int) : jsRel len i ≤ len := by
  unfold jsRel
  split
  · omega
  · exact min_le_right _ _

/-- Counterexample to claim C3 as stated: the malformed patch
`{line_start 3, line_end 1}` (start past end) applied to the 5-line document
`a…e` is neither skipped nor clamped to any valid range — JavaScript's
negative/overlapping slice arithmetic duplicates line `b` instead.  The last
conjunct checks the result against the unchanged document and against every
splice over a well-formed range `1 ≤ s ≤ lineCount+1`, `s-1 ≤ e ≤ lineCount`. -/
theorem malformed_patch_counterexample :
    handleApplyPatch ⟨none, some [⟨3, 1, "X"⟩], none⟩ "a\nb\nc\nd\ne"
        = some ⟨"a\nb\nX\nb\nc\nd\ne", [3]⟩
    ∧ applyOnePatch ["a", "b", "c", "d", "e"] ⟨3, 1, "X"⟩ ≠ ["a", "b", "c", "d", "e"]
    ∧ (∀ s ∈ [1, 2, 3, 4, 5, 6], ∀ t ∈ [0, 1, 2, 3, 4, 5],
        t + 1 < s ∨
          applyOnePatch ["a", "b", "c", "d", "e"] ⟨(s : Int), (t : Int), "X"⟩
            ≠ applyOnePatch ["a", "b", "c", "d", "e"] ⟨3, 1, "X"⟩) := by
  refine ⟨by decide, by decide, by decide⟩

/-- Claim C3 (amended): applying a malformed patch (`line_start > line_end`,
or `line_start` outside `[1, lineCount+1]`) never throws — the applier is
total, with the splice fully determined by JavaScript's clamping slice
arithmetic (the length identity below holds for every patch, malformed or
not) — but the malformed patch is neither clamped to a valid range nor
skipped, and the result can duplicate document lines. -/
theorem malformed_patch_never_throws :
    (∀ (lines : List String) (p : Patch),
        (applyOnePatch lines p).length
          = jsRel lines.length (p.line_start - 1) + (splitLines p.replacement).length
              + (lines.length - jsRel lines.length p.line_end))
    ∧ (∀ (expl : AIExplanationModel) (code : String) (ps : List Patch),
        expl.minimal_fix_patches = some ps → (handleApplyPatch expl code).isSome = true) := by
  constructor
  · intro lines p
    have h1 := jsRel_le lines.length (p.line_start - 1)
    simp [applyOnePatch, List.length_append, List.length_take, List.length_drop,
          Nat.min_eq_left h1]
    omega
  · intro expl code ps hp
    unfold handleApplyPatch applyPatchBranches
    rcases expl.corrected_code with _ | s
    · rw [hp]
      rfl
    · by_cases hs : s ≠ ""
      · simp [hs]
      · simp only [if_neg hs]
        rw [hp]
        rfl

/-- Witness for C3's amended theorem at a malformed patch. -/
theorem malformed_patch_never_throws_witness :
    (handleApplyPatch ⟨none, some [⟨0, -2, "X"⟩], none⟩ "a\nb").isSome = true :=
  malformed_patch_never_throws.2 ⟨none, some [⟨0, -2, "X"⟩], none⟩ "a\nb" [⟨0, -2, "X"⟩] rfl

/-- A minimal well-formed program for exercising the terminal local tier. -/
def simpleMainProgram : String :=
  "public class Main \x7b public static void main(String[] args) \x7b \x7d \x7d"

/-- Claim C4 (code bug): the remote sandbox timeout is indeed the fixed
5-second limit (`pistonTimeoutMs`), and when the AI tier's response cannot
be obtained or parsed the cited orchestrator does fall to the local
simulation tier — but that tier, whose first statement calls the cited
scanner, always throws the scanner's `ReferenceError` instead of returning
a `CompilationResult` of any classification, degraded or otherwise.  (The
repository's Piston-based orchestrators never consult the AI tier; their
fallbacks — `fallbackSimulation`, which opens with the same scanner call,
outside its internal `try` — fail the same way.) -/
theorem local_tier_throws :
    pistonTimeoutMs = 5000
    ∧ (∀ (code : String) (inputs : List String),
        runJavaCompilerSimulation (Except.error ()) code inputs
          = localSimulation code inputs)
    ∧ (∀ (code : String) (inputs : List String),
        localSimulation code inputs = Except.error scannerScopeError)
    ∧ runJavaCompilerSimulation (Except.error ()) simpleMainProgram []
        = Except.error scannerScopeError
    ∧ (∀ r : CompilerResult,
        runJavaCompilerSimulation (Except.error ()) simpleMainProgram []
          ≠ Except.ok r) := by
  refine ⟨rfl, fun code inputs => rfl, fun code inputs => rfl, rfl, ?_⟩
  intro r h
  exact Except.noConfusion h

/-- `bump` sets the bumped key's looked-up count to its old count plus one. -/
theorem lookup_bump_self (m : List (String × Nat)) (k : String) :
    (bump m k).lookup k = some (((m.lookup k).getD 0) + 1) := by
  induction m with
  | nil => simp [bump]
  | cons hd tl ih =>
    obtain ⟨a, n⟩ := hd
    by_cases h : a = k
    · subst h
      simp [bump, List.lookup]
    · have hba : (k == a) = false := beq_eq_false_iff_ne.2 (fun hh => h hh.symm)
      simp [bump, h, List.lookup, hba, ih]

/-- `bump` leaves every other key's lookup unchanged. -/
theorem lookup_bump_ne (m : List (String × Nat)) (k k' : String) (h : k' ≠ k) :
    (bump m k).lookup k' = m.lookup k' := by
  induction m with
  | nil =>
    have hba : (k' == k) = false := beq_eq_false_iff_ne.2 h
    simp [bump, List.lookup, hba]
  | cons hd tl ih =>
    obtain ⟨a, n⟩ := hd
    by_cases ha : a = k
    · subst ha
      have hba : (k' == a) = false := beq_eq_false_iff_ne.2 h
      simp [bump, List.lookup, hba]
    · simp [bump, ha, List.lookup, ih]

/-- The boolean accumulated by the `forEach` loop of `trackMistakes` is true
iff it started true or some pattern's regex tests positive. -/
theorem trackFold_found (t : List Char) :
    ∀ (ps : List (String × RE)) (m : List (String × Nat)) (b : Bool),
      (ps.foldl (trackStep t) (m, b)).2 = (b || ps.any (fun p => reTest p.2 t)) := by
  intro ps
  induction ps with
  | nil => simp
  | cons p rest ih =>
    intro m b
    simp only [List.foldl_cons, List.any_cons]
    by_cases h : reTest p.2 t
    · have hstep : trackStep t (m, b) p = (bump m p.1, true) := by simp [trackStep, h]
      rw [hstep, ih]
      simp [h]
    · have hstep : trackStep t (m, b) p = (m, b) := by simp [trackStep, h]
      rw [hstep, ih]
      simp [h]

/-- Keys not owned by any pattern in the list are untouched by the loop. -/
theorem trackFold_lookup_not_mem (t : List Char) (k : String) :
    ∀ (ps : List (String × RE)) (m : List (String × Nat)) (b : Bool),
      k ∉ ps.map Prod.fst →
      ((ps.foldl (trackStep t) (m, b)).1).lookup k = m.lookup k := by
  intro ps
  induction ps with
  | nil => simp
  | cons p rest ih =>
    intro m b hk
    simp only [List.map_cons, List.mem_cons, not_or] at hk
    simp only [List.foldl_cons]
    by_cases h : reTest p.2 t
    · have hstep : trackStep t (m, b) p = (bump m p.1, true) := by simp [trackStep, h]
      rw [hstep, ih _ _ hk.2, lookup_bump_ne _ _ _ hk.1]
    · have hstep : trackStep t (m, b) p = (m, b) := by simp [trackStep, h]
      rw [hstep, ih _ _ hk.2]

/-- Per-pattern effect of one `trackMistakes` loop over a pattern list with
pairwise-distinct keys: the looked-up count of a pattern's key grows by
exactly one when its regex tests positive on the text, else stays. -/
theorem trackFold_lookup_mem (t : List Char) :
    ∀ (ps : List (String × RE)) (m : List (String × Nat)) (b : Bool) (p : String × RE),
      p ∈ ps → (ps.map Prod.fst).Nodup →
      (((ps.foldl (trackStep t) (m, b)).1).lookup p.1).getD 0
        = ((m.lookup p.1).getD 0) + (if reTest p.2 t then 1 else 0) := by
  intro ps
  induction ps with
  | nil => simp
  | cons q rest ih =>
    intro m b p hp hnd
    simp only [List.map_cons, List.nodup_cons] at hnd
    simp only [List.foldl_cons]
    rcases List.mem_cons.1 hp with rfl | hp
    · by_cases h : reTest p.2 t
      · have hstep : trackStep t (m, b) p = (bump m p.1, true) := by simp [trackStep, h]
        rw [hstep, trackFold_lookup_not_mem _ _ _ _ _ hnd.1, lookup_bump_self]
        simp [h]
      · have hstep : trackStep t (m, b) p = (m, b) := by simp [trackStep, h]
        rw [hstep, trackFold_lookup_not_mem _ _ _ _ _ hnd.1]
        simp [h]
    · have hne : p.1 ≠ q.1 := by
        intro hcontra
        exact hnd.1 (hcontra ▸ List.mem_map_of_mem Prod.fst hp)
      by_cases h : reTest q.2 t
      · have hstep : trackStep t (m, b) q = (bump m q.1, true) := by simp [trackStep, h]
        rw [hstep, ih _ _ p hp hnd.2, lookup_bump_ne _ _ _ hne]
      · have hstep : trackStep t (m, b) q = (m, b) := by simp [trackStep, h]
        rw [hstep, ih _ _ p hp hnd.2]

/-- After `loadCounts`, the persisted count agrees with the loaded mapping. -/
theorem countOf_loadCounts (st : MTStorage) (k : String) :
    countOf (loadCounts st).2 k = loadedCount st k := by
  unfold countOf loadedCount loadCounts
  rcases st with ⟨_ | blob, last⟩
  · rfl
  · cases blob <;> rfl

/-- No mistake signature matches the empty output. -/
theorem error_patterns_empty_no_match :
    ∀ p ∈ ERROR_PATTERNS, reTest p.2 [] = false := by decide

/-- The nine pattern keys are pairwise distinct. -/
theorem error_patterns_keys_nodup : (ERROR_PATTERNS.map Prod.fst).Nodup := by decide

/-- On empty output `trackMistakes` is an immediate no-op. -/
theorem trackMistakes_empty (now : String) (st : MTStorage) :
    trackMistakes "" now st = (false, st) := by
  simp [trackMistakes]

/-- On non-empty output, `trackMistakes` returns whether any signature
matched the lower-cased text. -/
theorem trackMistakes_fst (output now : String) (st : MTStorage) (h0 : output ≠ "") :
    (trackMistakes output now st).1
      = ERROR_PATTERNS.any (fun p => reTest p.2 (toLowerL output.data)) := by
  simp only [trackMistakes, if_neg h0]
  rw [trackFold_found]
  simp only [Bool.false_or]
  by_cases hany : ERROR_PATTERNS.any (fun p => reTest p.2 (toLowerL output.data)) = true
  · simp [hany]
  · simp only [Bool.not_eq_true] at hany
    simp [hany]

/-- Claim C7: one call to `trackMistakes` returns true iff at least one
known signature matches the (lower-cased) output, and it changes each
pattern symbol's persisted count by exactly one when that pattern's
signature matches — regardless of how many times the signature occurs
inside the text, because the source uses a boolean regex `test` per
pattern — and leaves it unchanged otherwise. -/
theorem trackMistakes_increments_once (output now : String) (st : MTStorage) :
    ((trackMistakes output now st).1 = true
        ↔ ∃ p ∈ ERROR_PATTERNS, reTest p.2 (toLowerL output.data) = true)
    ∧ ∀ p ∈ ERROR_PATTERNS,
        countOf (trackMistakes output now st).2 p.1
          = loadedCount st p.1 + (if reTest p.2 (toLowerL output.data) then 1 else 0) := by
  by_cases h0 : output = ""
  · subst h0
    rw [trackMistakes_empty]
    constructor
    · constructor
      · intro h
        simp at h
      · rintro ⟨p, hp, hmatch⟩
        have hz := error_patterns_empty_no_match p hp
        rw [show toLowerL ("" : String).data = [] from rfl, hz] at hmatch
        simp at hmatch
    · intro p hp
      have hz := error_patterns_empty_no_match p hp
      rw [show toLowerL ("" : String).data = [] from rfl, hz]
      simp only [Bool.false_eq_true, if_false, Nat.add_zero]
      unfold countOf loadedCount loadCounts
      rcases st with ⟨_ | blob, last⟩
      · rfl
      · cases blob <;> rfl
  · constructor
    · rw [trackMistakes_fst output now st h0]
      exact List.any_eq_true
    · intro p hp
      have hfst := trackMistakes_fst output now st h0
      by_cases hany : ERROR_PATTERNS.any (fun p => reTest p.2 (toLowerL output.data)) = true
      · have hsnd : (trackMistakes output now st).2
            = ⟨some (.good (ERROR_PATTERNS.foldl (trackStep (toLowerL output.data))
                ((loadCounts st).1, false)).1), some now⟩ := by
          simp only [trackMistakes, if_neg h0]
          rw [show (ERROR_PATTERNS.foldl (trackStep (toLowerL output.data))
              ((loadCounts st).1, false)).2 = true by rw [trackFold_found]; simpa using hany]
          simp
        rw [hsnd]
        unfold countOf
        exact trackFold_lookup_mem (toLowerL output.data) ERROR_PATTERNS
          (loadCounts st).1 false p hp error_patterns_keys_nodup
      · simp only [Bool.not_eq_true] at hany
        have hnomatch : reTest p.2 (toLowerL output.data) = false := by
          by_contra hcon
          simp only [Bool.not_eq_false] at hcon
          rw [← Bool.not_eq_true] at hany
          exact hany (List.any_eq_true.2 ⟨p, hp, hcon⟩)
        have hsnd : (trackMistakes output now st).2 = (loadCounts st).2 := by
          simp only [trackMistakes, if_neg h0]
          rw [show (ERROR_PATTERNS.foldl (trackStep (toLowerL output.data))
              ((loadCounts st).1, false)).2 = false by rw [trackFold_found]; simpa using hany]
          simp
        rw [hsnd, hnomatch, countOf_loadCounts]
        simp

/-- Witness for C7: one call on a matching compiler message bumps the
semicolon symbol's persisted count by exactly one from empty storage. -/
theorem trackMistakes_increments_once_witness :
    countOf (trackMistakes "error: expected \x27;\x27" "2026-01-01" ⟨none, none⟩).2 ";"
      = loadedCount ⟨none, none⟩ ";"
          + (if reTest reMistakeSemi (toLowerL "error: expected \x27;\x27".data) then 1 else 0) :=
  (trackMistakes_increments_once "error: expected \x27;\x27" "2026-01-01" ⟨none, none⟩).2
    (";", reMistakeSemi) (List.mem_cons_self _ _)

/-- Counterexample to claim C9 as stated: with a corrupted persisted
mapping and an output matching no signature, `trackMistakes` returns false
yet the storage has changed — `loadCounts` removed the corrupted
`mistake_counts` key as a side effect. -/
theorem trackMistakes_false_counterexample :
    (trackMistakes "hello" "t1" ⟨some .corrupt, some "t0"⟩).1 = false
    ∧ (trackMistakes "hello" "t1" ⟨some .corrupt, some "t0"⟩).2
        ≠ (⟨some .corrupt, some "t0"⟩ : MTStorage) := by
  constructor
  · decide
  · decide

/-- Claim C9 (amended): whenever `trackMistakes` returns false, neither the
mistake-count mapping nor the last-seen timestamp is written; provided the
persisted mapping is not corrupted, the storage is left completely
unchanged.  (On a corrupted mapping, loading deletes the corrupted key even
on a false return — the counterexample above.) -/
theorem trackMistakes_false_frame (output now : String) (st : MTStorage)
    (hwf : st.counts ≠ some CountsBlob.corrupt)
    (hres : (trackMistakes output now st).1 = false) :
    (trackMistakes output now st).2 = st := by
  by_cases h0 : output = ""
  · subst h0
    rw [trackMistakes_empty]
  · have hload : (loadCounts st).2 = st := by
      unfold loadCounts
      rcases hc : st.counts with _ | blob
      · rfl
      · cases blob with
        | good m => rfl
        | corrupt => exact absurd hc hwf
    simp only [trackMistakes, if_neg h0] at hres ⊢
    by_cases hf : (ERROR_PATTERNS.foldl (trackStep (toLowerL output.data))
        ((loadCounts st).1, false)).2 = true
    · rw [if_pos hf] at hres
      simp at hres
    · rw [if_neg hf] at hres ⊢
      exact hload

/-- Witness for C9's amended theorem: well-formed (empty) storage, no
match, storage unchanged. -/
theorem trackMistakes_false_frame_witness :
    (trackMistakes "hello" "t1" ⟨none, some "t0"⟩).2 = (⟨none, some "t0"⟩ : MTStorage) :=
  trackMistakes_false_frame "hello" "t1" ⟨none, some "t0"⟩ (by simp) (by decide)

/-- Membership in a stable descending insertion. -/
theorem mem_insDesc (p x : Patch) : ∀ (l : List Patch), x ∈ insDesc p l ↔ x = p ∨ x ∈ l := by
  intro l
  induction l with
  | nil => simp [insDesc]
  | cons q rest ih =>
    unfold insDesc
    by_cases hc : p.line_start ≤ q.line_start
    · simp only [if_pos hc, List.mem_cons, ih]
      tauto
    · simp only [if_neg hc, List.mem_cons]

/-- Inserting into a list sorted by descending `line_start` keeps it
sorted. -/
theorem insDesc_pairwise (p : Patch) :
    ∀ {l : List Patch}, l.Pairwise (fun a b => b.line_start ≤ a.line_start) →
      (insDesc p l).Pairwise (fun a b => b.line_start ≤ a.line_start) := by
  intro l
  induction l with
  | nil =>
    intro _
    simp [insDesc]
  | cons q rest ih =>
    intro h
    rw [List.pairwise_cons] at h
    obtain ⟨hq, hrest⟩ := h
    unfold insDesc
    by_cases hc : p.line_start ≤ q.line_start
    · rw [if_pos hc, List.pairwise_cons]
      refine ⟨?_, ih hrest⟩
      intro x hx
      rcases (mem_insDesc p x rest).1 hx with rfl | hx
      · exact hc
      · exact hq x hx
    · rw [if_neg hc, List.pairwise_cons]
      refine ⟨?_, List.pairwise_cons.2 ⟨hq, hrest⟩⟩
      intro x hx
      rcases List.mem_cons.1 hx with rfl | hx
      · omega
      · have := hq x hx
        omega

/-- The sort `handleApplyPatch` performs really is descending in
`line_start`. -/
theorem sortPatchesDesc_pairwise (ps : List Patch) :
    (sortPatchesDesc ps).Pairwise (fun a b => b.line_start ≤ a.line_start) := by
  have key : ∀ (l : List Patch) (acc : List Patch),
      acc.Pairwise (fun a b => b.line_start ≤ a.line_start) →
      (l.foldl (fun acc p => insDesc p acc) acc).Pairwise
        (fun a b => b.line_start ≤ a.line_start) := by
    intro l
    induction l with
    | nil => intro acc h; exact h
    | cons p rest ih =>
      intro acc h
      exact ih _ (insDesc_pairwise p h)
  exact key ps [] (by simp)

/-- The document component of the patch-array loop is a fold of single
splices. -/
theorem applyPatchesLoop_fst :
    ∀ (ps : List Patch) (l : List String) (fx : List Int),
      (applyPatchesLoop (l, fx) ps).1 = ps.foldl applyOnePatch l := by
  intro ps
  induction ps with
  | nil => intro l fx; rfl
  | cons p rest ih =>
    intro l fx
    simp only [applyPatchesLoop, List.foldl_cons]
    exact ih _ _

/-- A single splice leaves every line strictly before `line_start`
unchanged. -/
theorem applyOnePatch_preserves_prefix (lines : List String) (p : Patch) (k : Nat)
    (hk : (k : Int) + 1 < p.line_start) (hlen : k < lines.length) :
    (applyOnePatch lines p)[k]? = lines[k]? := by
  have h0 : ¬ (p.line_start - 1 < 0) := by omega
  have h2 : k < jsRel lines.length (p.line_start - 1) := by
    unfold jsRel
    rw [if_neg h0]
    omega
  have h3 : k < (lines.take (jsRel lines.length (p.line_start - 1))).length := by
    rw [List.length_take]
    omega
  simp only [applyOnePatch]
  have h4 : k < (List.take (jsRel lines.length (p.line_start - 1)) lines
      ++ splitLines p.replacement).length := by
    rw [List.length_append]
    omega
  rw [List.getElem?_append_left h4, List.getElem?_append_left h3]
  exact List.getElem?_take_of_lt h2

/-- Claim C1: for every patch array, `handleApplyPatch` applies the patches
in descending `line_start` order (the sorted list is pairwise descending),
splicing each patch over `[line_start, line_end]` of the current,
already-partially-patched document (the resulting document is the fold of
single splices over the descending sort); and one splice never changes any
line strictly before its `line_start` — the lines a not-yet-applied patch
with a smaller `line_start` addresses. -/
theorem patches_applied_descending :
    (∀ ps : List Patch,
        (sortPatchesDesc ps).Pairwise (fun a b => b.line_start ≤ a.line_start))
    ∧ (∀ (code : String) (ps : List Patch) (pp : Option Patch),
        (handleApplyPatch ⟨none, some ps, pp⟩ code).map ApplyOutcome.code
          = some (joinLines ((sortPatchesDesc ps).foldl applyOnePatch (splitLines code))))
    ∧ (∀ (lines : List String) (p : Patch) (k : Nat),
        (k : Int) + 1 < p.line_start → k < lines.length →
        (applyOnePatch lines p)[k]? = lines[k]?) := by
  refine ⟨sortPatchesDesc_pairwise, ?_, applyOnePatch_preserves_prefix⟩
  intro code ps pp
  simp only [handleApplyPatch, applyPatchBranches]
  rw [applyPatchesLoop_fst]
  rfl

/-- Witness for C1: a line before the patch's `line_start` is untouched by
the splice. -/
theorem patches_applied_descending_witness :
    (applyOnePatch ["a", "b", "c"] ⟨3, 3, "X"⟩)[0]? = ["a", "b", "c"][0]? :=
  patches_applied_descending.2.2 ["a", "b", "c"] ⟨3, 3, "X"⟩ 0 (by decide) (by decide)

/-- Membership in a rule's guarded contribution. -/
theorem mem_guard1 {b : Bool} {x e : LogicalError} (h : e ∈ guard1 b x) :
    b = true ∧ e = x := by
  cases b
  · simp [guard1] at h
  · simpa [guard1] using h

/-- `jRange s n` enumerates exactly `[s, s+n)`. -/
theorem mem_jRange : ∀ {n s j : Nat}, j ∈ jRange s n → s ≤ j ∧ j < s + n := by
  intro n
  induction n with
  | zero =>
    intro s j h
    simp [jRange] at h
  | succ m ih =>
    intro s j h
    rcases List.mem_cons.1 h with rfl | h
    · omega
    · have := ih h
      omega

/-- `findIndexL` only returns indices of the list. -/
theorem findIndexL_lt {p : α → Bool} : ∀ {l : List α} {i : Nat},
    findIndexL p l = some i → i < l.length := by
  intro l
  induction l with
  | nil =>
    intro i h
    simp [findIndexL] at h
  | cons x xs ih =>
    intro i h
    unfold findIndexL at h
    by_cases hp : p x
    · rw [if_pos hp] at h
      cases h
      simp
    · rw [if_neg hp] at h
      rcases Option.map_eq_some'.1 h with ⟨j, hj, rfl⟩
      have := ih hj
      simp
      omega

/-- The Fibonacci rule only fires when the next line exists. -/
theorem fib_next_line_exists (lines : List String) (i : Nat)
    (h : reTest reBEqAPlusB ((lines.getD (i + 1) "").data) = true) :
    i + 1 < lines.length := by
  by_contra hle
  push_neg at hle
  rw [List.getD_eq_default _ _ hle] at h
  have hfalse : reTest reBEqAPlusB (("" : String).data) = false := by decide
  rw [hfalse] at h
  cases h

/-- Every per-line rule reports on its own line, except the Fibonacci rule,
which reports on the following line and only fires when that line exists. -/
theorem lineChecks_line (code : String) (lines : List String) (i : Nat) (e : LogicalError)
    (h : e ∈ lineChecks code lines i) :
    e.line = (i : Int) + 1 ∨ (e.line = (i : Int) + 2 ∧ i + 1 < lines.length) := by
  simp only [lineChecks, List.mem_append] at h
  rcases h with ((((((((((((h | h) | h) | h) | h) | h) | h) | h) | h) | h) | h) | h) | h) | h
  · left; rw [(mem_guard1 h).2]
  · left; rw [(mem_guard1 h).2]
  · left; rw [(mem_guard1 h).2]
  · left; rw [(mem_guard1 h).2]
  · left; rw [(mem_guard1 h).2]
  · left; rw [(mem_guard1 h).2]
  · left; rw [(mem_guard1 h).2]
  · left; rw [(mem_guard1 h).2]
  · obtain ⟨hc, he⟩ := mem_guard1 h
    rw [Bool.and_eq_true] at hc
    right
    constructor
    · rw [he]
      simp only
      omega
    · exact fib_next_line_exists lines i hc.2
  · rcases hf : reFind reWhileLtCaps ((lines.getD i "").data) with _ | caps
    · rw [hf] at h
      simp at h
    · rw [hf] at h
      left
      rw [(mem_guard1 h).2]
  · left; rw [(mem_guard1 h).2]
  · left; rw [(mem_guard1 h).2]
  · left; rw [(mem_guard1 h).2]
  · left; rw [(mem_guard1 h).2]

/-- The contextual array-bounds rule reports only on real lines of the
document. -/
theorem contextChecks_line (lines : List String) (i : Nat) (e : LogicalError)
    (h : e ∈ contextChecks lines i) :
    ∃ j, j < lines.length ∧ e.line = (j : Int) + 1 := by
  simp only [contextChecks] at h
  rcases h1 : reFind reNewArr ((lines.getD i "").data) with _ | caps
  · rw [h1] at h
    simp at h
  · rw [h1] at h
    rcases h2 : reFind reVarEqNew ((lines.getD i "").data) with _ | caps2
    · rw [h2] at h
      simp at h
    · rw [h2] at h
      rw [List.mem_flatMap] at h
      obtain ⟨j, hj, hin⟩ := h
      have hjr := mem_jRange hj
      have hjlen : j < lines.length := by omega
      refine ⟨j, hjlen, ?_⟩
      rcases List.mem_append.1 hin with hin | hin
      · rw [(mem_guard1 hin).2]
      · rcases h3 : reFind (reArrUsage (capGet caps2 1)) ((lines.getD j "").data) with _ | c
        · rw [h3] at hin
          simp at hin
        · rw [h3] at hin
          rw [(mem_guard1 hin).2]

/-- The factorial heuristic reports on a line `findIndex` located. -/
theorem factorialCheck_line (code : String) (lines : List String) (e : LogicalError)
    (h : e ∈ factorialCheck code lines) :
    ∃ j, j < lines.length ∧ e.line = (j : Int) + 1 := by
  unfold factorialCheck at h
  split at h
  · rcases hidx : findIndexL (fun l => reTest reFactLoop l.data) lines with _ | idx
    · rw [hidx] at h
      simp at h
    · rw [hidx] at h
      refine ⟨idx, findIndexL_lt hidx, ?_⟩
      simpa using congrArg LogicalError.line (List.mem_singleton.1 h)
  · simp at h

/-- The Armstrong heuristic reports on a line `findIndex` located. -/
theorem armstrongCheck_line (code : String) (lines : List String) (e : LogicalError)
    (h : e ∈ armstrongCheck code lines) :
    ∃ j, j < lines.length ∧ e.line = (j : Int) + 1 := by
  unfold armstrongCheck at h
  split at h
  · rcases hidx : findIndexL (fun l => reTest reArmstrong l.data) lines with _ | idx
    · rw [hidx] at h
      simp at h
    · rw [hidx] at h
      refine ⟨idx, findIndexL_lt hidx, ?_⟩
      simpa using congrArg LogicalError.line (List.mem_singleton.1 h)
  · simp at h

/-- Claim C10 (code bug): the cited `detectLogicalErrors` revision never
returns a diagnostic list — every call ends in the scope `ReferenceError` —
so the claimed invariant is about values the function never produces.  The
claim is the evident intent, and it holds of everything the scanner ever
constructs: every diagnostic accumulated before the throw (and returned by
the repaired later revision's loop) carries a line number between 1 and the
document's line count inclusive — no rule reports line 0 or a line past the
end (the Fibonacci rule reports on the following line only when that line
exists, and the contextual rules stay inside the document). -/
theorem scanner_lines_in_bounds (code : String) (e : LogicalError)
    (h : e ∈ detectLogicalErrorsLoop code) :
    (∀ d : String, detectLogicalErrors d = Except.error scannerScopeError)
    ∧ (1 ≤ e.line ∧ e.line ≤ ((splitLines code).length : Int)) := by
  refine ⟨fun d => rfl, ?_⟩
  simp only [detectLogicalErrorsLoop, List.mem_append, List.mem_flatMap, List.mem_range] at h
  rcases h with (⟨i, hi, hin⟩ | h) | h
  · rcases hin with hin | hin
    · rcases lineChecks_line code (splitLines code) i e hin with h1 | ⟨h1, h2⟩
      · rw [h1]
        constructor <;> omega
      · rw [h1]
        constructor <;> omega
    · obtain ⟨j, hj, hline⟩ := contextChecks_line (splitLines code) i e hin
      rw [hline]
      constructor <;> omega
  · obtain ⟨j, hj, hline⟩ := factorialCheck_line code (splitLines code) e h
    rw [hline]
    constructor <;> omega
  · obtain ⟨j, hj, hline⟩ := armstrongCheck_line code (splitLines code) e h
    rw [hline]
    constructor <;> omega

/-- Witness for C10 at a division-by-zero diagnostic accumulated on a
one-line document. -/
theorem scanner_lines_in_bounds_witness :
    (∀ d : String, detectLogicalErrors d = Except.error scannerScopeError)
    ∧ (1 ≤ (⟨1, "Division by zero detected.", .error, some .DIVISION_BY_ZERO⟩ : LogicalError).line
        ∧ (⟨1, "Division by zero detected.", .error, some .DIVISION_BY_ZERO⟩ : LogicalError).line
            ≤ ((splitLines "x = 1 / 0;").length : Int)) :=
  scanner_lines_in_bounds "x = 1 / 0;"
    ⟨1, "Division by zero detected.", .error, some .DIVISION_BY_ZERO⟩ (by decide)
